import Mathlib

/-!
Verification of the numeric core of the Metriplectic Coherence Lab repository:
the Aureo quasiperiodic operator, the entropy proxy, the sequence stepper, the
rotor/lock detector, the Z-pinch density profile, the soliton lifecycle of the
audio/hologram matrix generator, the frequency-bin index computation, and the
external analysis client's error handling. Real-valued JavaScript numbers are
modelled as real numbers.
-/

noncomputable section

/-- The golden-ratio constant, from src constants: `PHI = 1.618033988749895`. -/
def PHI : ℝ := 1.618033988749895

/-- The phase-state record, from src/types.ts `PhaseState`. -/
structure PhaseState where
  q : ℝ
  p : ℝ
  n : ℝ
  S : ℝ
  kappa : ℝ
  An : ℝ

/-- The Aureo quasiperiodic operator, from `calculateAureoOperator`:
`cos(pi * n) * cos(pi * phi * n)`. -/
def calculateAureoOperator (n : ℝ) : ℝ :=
  let parity := Real.cos (Real.pi * n)
  let quasi := Real.cos (Real.pi * PHI * n)
  parity * quasi

/-- The entropy proxy, from `entropy`: deviation of `|val|` from `1/PHI`,
with a `1e-9` guard against `log 0`. -/
def entropy (val : ℝ) : ℝ :=
  let target := 1.0 / PHI
  let deviation := |(|val|) - target|
  if deviation < 1e-9 then 0 else -deviation * Real.log (deviation + 1e-9)

/-- The impedance function, from `quasiperiodicImpedance`. -/
def quasiperiodicImpedance (t q : ℝ) : ℝ :=
  let baseZ := |q|
  let modulation := Real.cos (t * PHI * Real.pi)
  baseZ * (1.0 + 0.5 * modulation)

/-- The sequence stepper, from `metripleticEvolution`. The matrix argument is
the quantum matrix (or null) the caller passes along with the time delta. -/
def metripleticEvolution (state : PhaseState) (dt : ℝ)
    (quantumMatrix : Option (List (List ℝ))) : PhaseState :=
  let n_next : ℝ := ((⌊state.n + 1⌋ : ℤ) : ℝ)
  let An_next := calculateAureoOperator n_next
  let q_next := An_next
  let p_next := An_next - state.An
  let S_next := entropy An_next
  let dynamicKappa := |An_next|
  { q := q_next, p := p_next, n := n_next, S := S_next,
    kappa := dynamicKappa, An := An_next }

/-- The initial phase state, from src constants `INITIAL_STATE`. -/
def INITIAL_STATE : PhaseState :=
  { q := 1.0, p := 0.0, n := 1.0, S := 0.0, kappa := 0.1, An := 1.0 }

/-- The state built by `resetSimulation` for a user-chosen starting index:
it spreads `INITIAL_STATE` and overrides `n`, `An`, `q`, `p` and `S`
(the `kappa` field keeps the value of `INITIAL_STATE`). -/
def resetState (startN : ℤ) : PhaseState :=
  let initAn := calculateAureoOperator (startN : ℝ)
  { INITIAL_STATE with
    n := (startN : ℝ), An := initAn, q := initAn, p := 0, S := entropy initAn }

/-- The Z-pinch parameter record, from src/types.ts `ZPinchParams`. -/
structure ZPinchParams where
  I : ℝ
  R0 : ℝ
  alpha : ℝ
  beta : ℝ
  t : ℝ

/-- The plasma density, from `zpinchDensity`: modified Bennett equilibrium
profile with an oscillatory instability term. -/
def zpinchDensity (r z : ℝ) (params : ZPinchParams) : ℝ :=
  let r_norm := r / params.R0
  let bennett := 1.0 / (1.0 + r_norm * r_norm * PHI) ^ 2
  let bessel := Real.cos (3.0 * r_norm - params.t * 3.0)
  params.I * bennett * (1.0 + 0.5 * params.beta * bessel)

/-- The rotor/lock detector, from `detectRotor`: scores the trailing window of
ten states by the mean magnitude of `An` against `1/PHI`. -/
def detectRotor (trajectory : List PhaseState) : ℝ :=
  if trajectory.length < 10 then 0.0
  else
    let recent := trajectory.drop (trajectory.length - 10)
    let avgMag := recent.foldl (fun acc s => acc + |s.An|) 0 / (recent.length : ℝ)
    let golden := 1.0 / PHI
    if |avgMag - golden| < 0.1 then 0.9 else 0.2

/-- The mean of `|An|` over the trailing ten states of a trajectory, exactly
as `detectRotor` computes it (`slice(-10)` then a sum divided by the window
length). -/
def lastTenMeanMag (trajectory : List PhaseState) : ℝ :=
  let recent := trajectory.drop (trajectory.length - 10)
  recent.foldl (fun acc s => acc + |s.An|) 0 / (recent.length : ℝ)

/-- A solitonic pulse of the audio/hologram matrix generator, from the
`Soliton` record of the quantum audio module: identifier, grid coordinates,
lifetime `t` and amplitude. -/
structure Soliton where
  id : ℕ
  x : ℝ
  y : ℝ
  t : ℝ
  amplitude : ℝ

/-- The soliton `triggerSoliton` pushes: lifetime `t = 0`, `amplitude = 1.0`,
the current counter as identifier and the given grid coordinates. -/
def freshSoliton (counter : ℕ) (x y : ℝ) : Soliton :=
  { id := counter, x := x, y := y, t := 0, amplitude := 1.0 }

/-- The effect of `triggerSoliton` on the soliton list: it appends one fresh
soliton and removes nothing. -/
def triggerSoliton (solitons : List Soliton) (counter : ℕ) (x y : ℝ) :
    List Soliton :=
  solitons ++ [freshSoliton counter x y]

/-- The ageing pass of `computeQuantumState`: every soliton's lifetime is
advanced by `0.2`. -/
def ageSolitons (solitons : List Soliton) : List Soliton :=
  solitons.map fun s => { s with t := s.t + 0.2 }

/-- The culling pass of `computeQuantumState`: only solitons with lifetime
below `15.0` are kept. -/
def cullSolitons (solitons : List Soliton) : List Soliton :=
  solitons.filter fun s => decide (s.t < 15.0)

/-- The full soliton side effect of one `computeQuantumState` invocation:
age every soliton by `0.2`, then remove the dead ones. -/
def solitonTick (solitons : List Soliton) : List Soliton :=
  cullSolitons (ageSolitons solitons)

/-- The effect of `QuantumAudioManager.cleanup` on the soliton list: the
method stops the stream and closes the audio context but never touches
`this.solitons`. -/
def cleanupSolitons (solitons : List Soliton) : List Soliton :=
  solitons

/-- The effect of `QuantumAudioManager.getFrequencyData` on the soliton list:
the method reads the analyser but never touches `this.solitons`. -/
def getFrequencyDataSolitons (solitons : List Soliton) : List Soliton :=
  solitons

/-- The matrix dimension, from src constants: `QUANTUM_DIM = 32`. -/
def QUANTUM_DIM : ℕ := 32

/-- The grid center of `computeQuantumState`: `QUANTUM_DIM / 2`. -/
def gridCenter : ℝ := (QUANTUM_DIM : ℝ) / 2

/-- The maximum radius of `computeQuantumState`:
`sqrt(center * center + center * center)`. -/
def maxRadius : ℝ :=
  Real.sqrt (gridCenter * gridCenter + gridCenter * gridCenter)

/-- The radial distance of cell `(i, j)` from the grid center, from
`computeQuantumState`. -/
def cellDistance (i j : ℕ) : ℝ :=
  let dx := (i : ℝ) - gridCenter
  let dy := (j : ℝ) - gridCenter
  Real.sqrt (dx * dx + dy * dy)

/-- The frequency-bin index of cell `(i, j)`, from `computeQuantumState`:
`min(floor((distance / maxRadius) * (QUANTUM_DIM - 1)), QUANTUM_DIM - 1)`. -/
def freqIndex (i j : ℕ) : ℤ :=
  min ⌊(cellDistance i j / maxRadius) * ((QUANTUM_DIM : ℝ) - 1)⌋
    ((QUANTUM_DIM : ℤ) - 1)

/-- The outcome of the remote text-generation call inside `analyzeSimulation`:
the call throws, or it returns a response whose `text` field is absent or is
some string (an empty string is falsy for the fallback test). -/
inductive RemoteOutcome where
  | throws : RemoteOutcome
  | succeeds : Option String → RemoteOutcome

/-- The fixed message `analyzeSimulation` returns when the environment
credential is absent. -/
def apiKeyNotFoundMsg : String :=
  "API Key not found. Please ensure the environment is configured correctly."

/-- The fixed fallback `analyzeSimulation` returns when the response carries
no text. -/
def noTextMsg : String :=
  "Analysis core failed to synchronize with the quasiperiodic clock."

/-- The fixed fallback `analyzeSimulation` returns when the remote call
throws. -/
def coherenceCollapseMsg : String :=
  "Error: Coherence collapse detected in AI Analyst Core. Check project API key and quota."

/-- The external analysis client, from `analyzeSimulation`: the environment
credential (`process.env.API_KEY`, possibly absent) defaults to the empty
string; an empty key short-circuits to the not-configured message; otherwise
the remote outcome is mapped to the response text or to one of the two fixed
fallback strings, and a thrown error is caught at the call boundary. -/
def analyzeSimulation (envApiKey : Option String) (remote : RemoteOutcome) :
    String :=
  let apiKey := envApiKey.getD ""
  if apiKey = "" then apiKeyNotFoundMsg
  else
    match remote with
    | RemoteOutcome.throws => coherenceCollapseMsg
    | RemoteOutcome.succeeds none => noTextMsg
    | RemoteOutcome.succeeds (some text) =>
        if text = "" then noTextMsg else text

/-- C1 counterexample: the claim fails at the initial trajectory state.
`INITIAL_STATE` is held in the trajectory buffer at startup, yet its `kappa`
field is `0.1` while `|An| = 1.0`, so the conjunction `q == An` and
`kappa == |An|` is false there. -/
theorem initialState_kappa_counterexample :
    ¬ (INITIAL_STATE.q = INITIAL_STATE.An ∧
       INITIAL_STATE.kappa = |INITIAL_STATE.An|) := by
  intro h
  have h2 := h.2
  rw [INITIAL_STATE] at h2
  norm_num at h2

/-- C1 (amended): every state produced by the sequence stepper satisfies
`q = An` and `kappa = |An|`; the initial state and every reset state satisfy
`q = An`, but both carry the fixed `kappa = 0.1` inherited from
`INITIAL_STATE` instead of `|An|`. -/
theorem phaseState_invariant_amended :
    ∀ (s : PhaseState) (dt : ℝ) (m : Option (List (List ℝ))) (startN : ℤ),
      ((metripleticEvolution s dt m).q = (metripleticEvolution s dt m).An ∧
       (metripleticEvolution s dt m).kappa =
         |(metripleticEvolution s dt m).An|) ∧
      (INITIAL_STATE.q = INITIAL_STATE.An ∧ INITIAL_STATE.kappa = 0.1) ∧
      ((resetState startN).q = (resetState startN).An ∧
       (resetState startN).kappa = 0.1) := by
  intro s dt m startN
  refine ⟨⟨rfl, rfl⟩, ⟨rfl, rfl⟩, ⟨rfl, rfl⟩⟩

/-- C2: for every input state, time delta and matrix argument, the stepper
returns exactly the state with index `floor(n) + 1`, operator value at the
new index duplicated as `q`, momentum equal to the operator difference,
entropy of the new operator value, and `kappa` equal to its absolute value;
the index advances by exactly one regardless of `dt`. -/
theorem metripleticEvolution_spec :
    ∀ (s : PhaseState) (dt : ℝ) (m : Option (List (List ℝ))),
      metripleticEvolution s dt m =
        { q := calculateAureoOperator (((⌊s.n⌋ : ℤ) : ℝ) + 1),
          p := calculateAureoOperator (((⌊s.n⌋ : ℤ) : ℝ) + 1) - s.An,
          n := ((⌊s.n⌋ : ℤ) : ℝ) + 1,
          S := entropy (calculateAureoOperator (((⌊s.n⌋ : ℤ) : ℝ) + 1)),
          kappa := |calculateAureoOperator (((⌊s.n⌋ : ℤ) : ℝ) + 1)|,
          An := calculateAureoOperator (((⌊s.n⌋ : ℤ) : ℝ) + 1) } := by
  intro s dt m
  have hfl : ((⌊s.n + 1⌋ : ℤ) : ℝ) = ((⌊s.n⌋ : ℤ) : ℝ) + 1 := by
    rw [Int.floor_add_one]
    push_cast
    ring
  unfold metripleticEvolution
  simp only [hfl]

/-- C10: the stepper's result depends only on the input phase state; neither
the time delta nor the matrix argument (including null) influences it. -/
theorem metripleticEvolution_noninterference :
    ∀ (s : PhaseState) (dt1 dt2 : ℝ) (m1 m2 : Option (List (List ℝ))),
      metripleticEvolution s dt1 m1 = metripleticEvolution s dt2 m2 := by
  intro s dt1 dt2 m1 m2
  rfl

/-- C7: at `r = 0` the plasma density reduces to
`I * (1 + 0.5 * beta * cos(-3t))`, the Bennett-profile term being `1`
at the axis, for every parameter record and every `z`. -/
theorem zpinchDensity_center_spec :
    ∀ (I R0 alpha beta t z : ℝ),
      zpinchDensity 0 z { I := I, R0 := R0, alpha := alpha, beta := beta, t := t } =
        I * (1.0 + 0.5 * beta * Real.cos (-(3.0 * t))) := by
  intro I R0 alpha beta t z
  unfold zpinchDensity
  simp only
  rw [zero_div]
  have hcos : 3.0 * (0 : ℝ) - t * 3.0 = -(3.0 * t) := by ring
  rw [hcos]
  norm_num

/-- C3: the detector returns exactly `0.0` for trajectories shorter than ten
states; otherwise exactly `0.9` when the mean of `|An|` over the last ten
states is within `0.1` of `1/PHI` and exactly `0.2` otherwise; no other value
is ever produced. -/
theorem detectRotor_spec :
    ∀ traj : List PhaseState,
      (traj.length < 10 → detectRotor traj = 0.0) ∧
      (10 ≤ traj.length →
        ((|lastTenMeanMag traj - 1.0 / PHI| < 0.1 ∧ detectRotor traj = 0.9) ∨
         (¬ |lastTenMeanMag traj - 1.0 / PHI| < 0.1 ∧
            detectRotor traj = 0.2))) ∧
      (detectRotor traj = 0.0 ∨ detectRotor traj = 0.9 ∨
        detectRotor traj = 0.2) := by
  intro traj
  have hdef : detectRotor traj =
      if traj.length < 10 then 0.0
      else if |lastTenMeanMag traj - 1.0 / PHI| < 0.1 then 0.9 else 0.2 := rfl
  by_cases h : traj.length < 10
  · exact ⟨fun _ => by rw [hdef, if_pos h], fun hc => absurd h (by omega),
      Or.inl (by rw [hdef, if_pos h])⟩
  · by_cases h2 : |lastTenMeanMag traj - 1.0 / PHI| < 0.1
    · exact ⟨fun hc => absurd hc h,
        fun _ => Or.inl ⟨h2, by rw [hdef, if_neg h, if_pos h2]⟩,
        Or.inr (Or.inl (by rw [hdef, if_neg h, if_pos h2]))⟩
    · exact ⟨fun hc => absurd hc h,
        fun _ => Or.inr ⟨h2, by rw [hdef, if_neg h, if_neg h2]⟩,
        Or.inr (Or.inr (by rw [hdef, if_neg h, if_neg h2]))⟩

/-- C4: the entropy estimator returns `0` exactly when the deviation of
`|v|` from `1/PHI` is below `1e-9` (in particular at `v = 1/PHI`), returns
`-deviation * ln(deviation + 1e-9)` otherwise, and is nonnegative on
`[-1, 1]`. -/
theorem entropy_spec :
    ∀ v : ℝ,
      (|(|v|) - 1.0 / PHI| < 1e-9 → entropy v = 0) ∧
      entropy (1.0 / PHI) = 0 ∧
      (¬ |(|v|) - 1.0 / PHI| < 1e-9 →
        entropy v =
          -(|(|v|) - 1.0 / PHI|) * Real.log (|(|v|) - 1.0 / PHI| + 1e-9)) ∧
      (-1 ≤ v → v ≤ 1 → 0 ≤ entropy v) := by
  intro v
  have hdef : ∀ w : ℝ, entropy w =
      if |(|w|) - 1.0 / PHI| < 1e-9 then 0
      else -(|(|w|) - 1.0 / PHI|) *
        Real.log (|(|w|) - 1.0 / PHI| + 1e-9) := fun w => rfl
  refine ⟨fun h => by rw [hdef, if_pos h], ?_, fun h => by rw [hdef, if_neg h], ?_⟩
  · rw [hdef]
    have hpos : (0 : ℝ) ≤ 1.0 / PHI := by rw [PHI]; norm_num
    rw [abs_of_nonneg hpos, sub_self, abs_zero]
    norm_num
  · intro h1 h2
    rw [hdef]
    by_cases hlt : |(|v|) - 1.0 / PHI| < 1e-9
    · rw [if_pos hlt]
    · rw [if_neg hlt]
      have hd0 : (0 : ℝ) ≤ |(|v|) - 1.0 / PHI| := abs_nonneg _
      have habs1 : |v| ≤ 1 := abs_le.mpr ⟨h1, h2⟩
      have habs0 : (0 : ℝ) ≤ |v| := abs_nonneg _
      have hdle : |(|v|) - 1.0 / PHI| ≤ 1.0 / PHI := by
        apply abs_le.mpr
        constructor
        · linarith
        · have h2t : (1 : ℝ) ≤ 2 * (1.0 / PHI) := by rw [PHI]; norm_num
          linarith
      have hlt1 : |(|v|) - 1.0 / PHI| + 1e-9 < 1 := by
        have hub : (1.0 : ℝ) / PHI + 1e-9 < 1 := by rw [PHI]; norm_num
        linarith
      have hgt0 : 0 < |(|v|) - 1.0 / PHI| + 1e-9 := by
        have : (0 : ℝ) < 1e-9 := by norm_num
        linarith
      have hlog : Real.log (|(|v|) - 1.0 / PHI| + 1e-9) < 0 :=
        Real.log_neg hgt0 hlt1
      have hmul : 0 ≤ |(|v|) - 1.0 / PHI| *
          (-(Real.log (|(|v|) - 1.0 / PHI| + 1e-9))) :=
        mul_nonneg hd0 (by linarith)
      have heq : -(|(|v|) - 1.0 / PHI|) *
          Real.log (|(|v|) - 1.0 / PHI| + 1e-9) =
          |(|v|) - 1.0 / PHI| *
          (-(Real.log (|(|v|) - 1.0 / PHI| + 1e-9))) := by ring
      rw [heq]
      exact hmul

/-- C5: the operator evaluator computes `cos(pi * n) * cos(pi * PHI * n)`
with `PHI` the fixed constant `1.618033988749895`; its value at every integer
index lies in `[-1, 1]`, and its value at `0` is `1`. -/
theorem calculateAureoOperator_spec :
    ∀ (x : ℝ) (n : ℤ),
      calculateAureoOperator x =
        Real.cos (Real.pi * x) * Real.cos (Real.pi * PHI * x) ∧
      PHI = 1.618033988749895 ∧
      (-1 ≤ calculateAureoOperator (n : ℝ) ∧
        calculateAureoOperator (n : ℝ) ≤ 1) ∧
      calculateAureoOperator 0 = 1 := by
  intro x n
  have habs : |calculateAureoOperator (n : ℝ)| ≤ 1 := by
    unfold calculateAureoOperator
    simp only
    rw [abs_mul]
    exact mul_le_one₀ (Real.abs_cos_le_one _) (abs_nonneg _)
      (Real.abs_cos_le_one _)
  refine ⟨rfl, rfl, abs_le.mp habs, ?_⟩
  unfold calculateAureoOperator
  simp [Real.cos_zero]

/-- Culling a one-element soliton list keeps the soliton exactly when its
lifetime is below the `15.0` threshold. -/
lemma cullSolitons_singleton (s : Soliton) :
    cullSolitons [s] = if s.t < 15.0 then [s] else [] := by
  by_cases h : s.t < 15.0
  · simp [cullSolitons, List.filter, h]
  · simp [cullSolitons, List.filter, h]

/-- One matrix-computation tick on a one-element soliton list: the lifetime
advances by `0.2` and the soliton survives exactly when the new lifetime is
below `15.0`. -/
lemma solitonTick_singleton (s : Soliton) :
    solitonTick [s] =
      if s.t + 0.2 < 15.0 then [{ s with t := s.t + 0.2 }] else [] := by
  unfold solitonTick ageSolitons
  simp only [List.map_cons, List.map_nil]
  rw [cullSolitons_singleton]

/-- A fresh soliton survives the first `k ≤ 74` matrix-computation ticks,
its lifetime reading `0.2 * k`. -/
lemma solitonTick_iterate_aux (c : ℕ) (x y : ℝ) :
    ∀ k : ℕ, k ≤ 74 →
      solitonTick^[k] [freshSoliton c x y] =
        [{ id := c, x := x, y := y, t := 0.2 * (k : ℝ),
           amplitude := 1.0 }] := by
  intro k
  induction k with
  | zero =>
    intro _
    simp only [Function.iterate_zero_apply, freshSoliton,
      List.cons.injEq, and_true, Soliton.mk.injEq]
    norm_num
  | succ k ih =>
    intro hk
    rw [Function.iterate_succ_apply', ih (by omega), solitonTick_singleton]
    have hk73 : (k : ℝ) ≤ 73 := by
      exact_mod_cast (show k ≤ 73 by omega)
    rw [if_pos (show (0.2 : ℝ) * (k : ℝ) + 0.2 < 15.0 by linarith)]
    have harg : (0.2 : ℝ) * ((k + 1 : ℕ) : ℝ) = 0.2 * (k : ℝ) + 0.2 := by
      push_cast
      ring
    rw [harg]

/-- C6: a soliton is created with lifetime `0` and amplitude `1.0`; each
matrix computation advances every lifetime by exactly `0.2`; a fresh soliton
is still present after any `k ≤ 74` ticks and is removed on tick `75`;
triggering a soliton removes nothing, and the cleanup and frequency-data
operations leave the soliton list untouched. -/
theorem soliton_lifecycle_spec :
    ∀ (k c : ℕ) (x y : ℝ) (l : List Soliton) (s : Soliton),
      (freshSoliton c x y).t = 0 ∧
      (freshSoliton c x y).amplitude = 1.0 ∧
      ageSolitons l = l.map (fun u => { u with t := u.t + 0.2 }) ∧
      (k ≤ 74 →
        solitonTick^[k] [freshSoliton c x y] =
          [{ id := c, x := x, y := y, t := 0.2 * (k : ℝ),
             amplitude := 1.0 }]) ∧
      solitonTick^[75] [freshSoliton c x y] = [] ∧
      (s ∈ l → s ∈ triggerSoliton l c x y) ∧
      cleanupSolitons l = l ∧
      getFrequencyDataSolitons l = l := by
  intro k c x y l s
  refine ⟨rfl, rfl, rfl, solitonTick_iterate_aux c x y k, ?_, ?_, rfl, rfl⟩
  · rw [show (75 : ℕ) = 74 + 1 from rfl, Function.iterate_succ_apply',
      solitonTick_iterate_aux c x y 74 (by norm_num), solitonTick_singleton]
    rw [if_neg (show ¬ ((0.2 : ℝ) * ((74 : ℕ) : ℝ) + 0.2 < 15.0) by
      push_cast
      norm_num)]
  · intro hs
    unfold triggerSoliton
    exact List.mem_append_left _ hs

/-- C8: when the environment credential is absent (or empty) the analysis
client returns the fixed not-configured message for any remote outcome;
with a credential, a thrown remote call yields the coherence-collapse
message and a text-less response yields the synchronization fallback; in
every case the client returns a string (one of the three fixed messages or
the remote text), never propagating an exception. -/
theorem analyzeSimulation_error_spec :
    ∀ (k : String) (r : RemoteOutcome),
      analyzeSimulation none r = apiKeyNotFoundMsg ∧
      analyzeSimulation (some "") r = apiKeyNotFoundMsg ∧
      (k ≠ "" →
        analyzeSimulation (some k) RemoteOutcome.throws =
          coherenceCollapseMsg) ∧
      (k ≠ "" →
        analyzeSimulation (some k) (RemoteOutcome.succeeds none) =
          noTextMsg) ∧
      (k ≠ "" →
        analyzeSimulation (some k) (RemoteOutcome.succeeds (some "")) =
          noTextMsg) ∧
      (analyzeSimulation (some k) r = apiKeyNotFoundMsg ∨
       analyzeSimulation (some k) r = coherenceCollapseMsg ∨
       analyzeSimulation (some k) r = noTextMsg ∨
       ∃ msg : String, r = RemoteOutcome.succeeds (some msg) ∧
         analyzeSimulation (some k) r = msg) := by
  intro k r
  refine ⟨by simp [analyzeSimulation], by simp [analyzeSimulation],
    fun hk => by simp [analyzeSimulation, hk],
    fun hk => by simp [analyzeSimulation, hk],
    fun hk => by simp [analyzeSimulation, hk], ?_⟩
  by_cases hk : k = ""
  · subst hk
    exact Or.inl (by simp [analyzeSimulation])
  · cases r with
    | throws => exact Or.inr (Or.inl (by simp [analyzeSimulation, hk]))
    | succeeds o =>
      cases o with
      | none => exact Or.inr (Or.inr (Or.inl (by simp [analyzeSimulation, hk])))
      | some msg =>
        by_cases hs : msg = ""
        · subst hs
          exact Or.inr (Or.inr (Or.inl (by simp [analyzeSimulation, hk])))
        · exact Or.inr (Or.inr (Or.inr
            ⟨msg, rfl, by simp [analyzeSimulation, hk, hs]⟩))

/-- C9: for every cell of the matrix grid, the frequency-bin index derived
from the cell's radial distance lies between `0` and `31`, so the read from
the 32-bin frequency-magnitude array is within bounds. -/
theorem freqIndex_bounds_spec :
    ∀ i j : ℕ, 0 ≤ freqIndex i j ∧ freqIndex i j ≤ 31 := by
  intro i j
  have hdist : 0 ≤ cellDistance i j := by
    unfold cellDistance
    exact Real.sqrt_nonneg _
  have hrad : 0 ≤ maxRadius := by
    unfold maxRadius
    exact Real.sqrt_nonneg _
  constructor
  · unfold freqIndex
    apply le_min
    · apply Int.floor_nonneg.mpr
      apply mul_nonneg (div_nonneg hdist hrad)
      norm_num [QUANTUM_DIM]
    · norm_num [QUANTUM_DIM]
  · unfold freqIndex
    refine le_trans (min_le_right _ _) ?_
    norm_num [QUANTUM_DIM]

end
